/-
Verification of the Resumable Batch Comparison Engine of the
Fify-FaceComparison repository against its natural-language specification.

The definitions below are a shallow embedding of the TypeScript sources:

* `mergeResults`           — the result-merge loop of the second variant of
                             POST /api/analyze/:jobId (src/server/routes.ts,
                             lines 806-815): for each incoming entry, push it
                             when its `imageId` is absent, otherwise overwrite
                             the entry at the first index with that `imageId`.
* `MemStorage` operations  — `getScanJob`, `setJob` (JS `Map.prototype.set`)
                             and `updateScanJobResults`
                             (src/server/storage.ts / src/unnamed/part_018).
* `createStorageProvider`  — src/server/services/cloud-storage.ts, lines
                             168-184.
* `tickV1`                 — the first variant of POST /api/analyze/:jobId
                             (src/server/routes.ts, lines 68-359).  External
                             collaborators (directory scan, image-batch fetch,
                             the Rekognition comparator, the wall clock) are
                             the oracle parameters, as the specification
                             declares them external collaborators.  The
                             response is modelled by the fields the
                             specification talks about: the spread job record,
                             the shown results, the continuation token (in
                             decoded form) and the `processing` block; the
                             store after the call and the number of scan /
                             comparator invocations are returned alongside.
-/
import Mathlib

structure ScanResult where
  imageId : Nat
  similarity : Rat
  matched : Bool
  error : Option String := none
  url : Option String := none
  driveUrl : Option String := none
deriving DecidableEq, Repr

/-- JS `Array.prototype.findIndex` (first index whose element satisfies `p`),
returning `none` instead of `-1` when no element matches. -/
def findIndex (p : ScanResult → Bool) : List ScanResult → Option Nat
  | [] => none
  | e :: rest => if p e then some 0 else (findIndex p rest).map (· + 1)

def mergeStep (acc : List ScanResult) (r : ScanResult) : List ScanResult :=
  match findIndex (fun e => e.imageId == r.imageId) acc with
  | some i => acc.set i r
  | none => acc ++ [r]

def mergeResults (existing incoming : List ScanResult) : List ScanResult :=
  incoming.foldl mergeStep existing

def stepR (r : ScanResult) : List ScanResult → List ScanResult
  | [] => [r]
  | e :: rest => if e.imageId = r.imageId then r :: rest else e :: stepR r rest

/-- The `imageId` keys of a result list, in order. -/
def keys (L : List ScanResult) : List Nat := L.map ScanResult.imageId

/-- JS `Array.prototype.find` by `imageId`. -/
def findKey (i : Nat) (L : List ScanResult) : Option ScanResult :=
  L.find? (fun e => e.imageId == i)

/-- Number of entries in `L` whose `imageId` is `i`. -/
def countKey (i : Nat) (L : List ScanResult) : Nat :=
  (L.filter (fun e => e.imageId == i)).length

/-- The last entry of `L` whose `imageId` is `i`, if any. -/
def lastWith (i : Nat) : List ScanResult → Option ScanResult
  | [] => none
  | e :: rest =>
      match lastWith i rest with
      | some v => some v
      | none => if e.imageId = i then some e else none

structure Job where
  id : Nat
  driveUrl : String
  driveType : String
  imageCount : Nat
  status : String
  results : Option (List ScanResult)
  createdAt : String
deriving DecidableEq, Repr

/-- The in-memory job map of `MemStorage` (`this.jobs`), as an association list. -/
abbrev Store := List (Nat × Job)

def getScanJob (store : Store) (id : Nat) : Option Job :=
  (store.find? (fun p => p.1 == id)).map (fun p => p.2)

/-- JS `Map.prototype.set`: replace the entry when the key exists, append otherwise. -/
def setJob (store : Store) (id : Nat) (j : Job) : Store :=
  if (store.find? (fun p => p.1 == id)).isSome
  then store.map (fun p => if p.1 == id then (id, j) else p)
  else store ++ [(id, j)]

/-- `MemStorage.updateScanJobResults` (src/unnamed/part_018): replaces the job's
`results` and sets `status`; the `status` parameter defaults to `'complete'`
(`none` here models the argument not being passed). -/
def updateScanJobResults (store : Store) (id : Nat) (results : List ScanResult)
    (status : Option String) : Except String (Store × Job) :=
  match getScanJob store id with
  | none => .error "Job not found"
  | some job =>
      let updatedJob : Job :=
        { job with results := some results, status := status.getD "complete" }
      .ok (setJob store id updatedJob, updatedJob)

/-- Character-list prefix test (JS `String.prototype.startsWith` on the slice). -/
def startsWithChars : List Char → List Char → Bool
  | _, [] => true
  | [], _ :: _ => false
  | c :: cs, p :: ps => c == p && startsWithChars cs ps

/-- JS `String.prototype.includes`: `pat` occurs as a contiguous substring of `s`. -/
def containsChars (pat : List Char) : List Char → Bool
  | [] => startsWithChars [] pat
  | c :: cs => startsWithChars (c :: cs) pat || containsChars pat cs

def strContains (s pat : String) : Bool := containsChars pat.data s.data

/-- The two provider classes of src/server/services/cloud-storage.ts; the
constructor arguments (OneDrive env credentials, Google API key) are carried
as data. -/
inductive Provider where
  | oneDrive
  | googleDrive (apiKey : String)
deriving DecidableEq, Repr

/-- `createStorageProvider` (src/server/services/cloud-storage.ts, first
variant, lines 168-184): dispatch on URL substrings, in source order. The
`if (!apiKey)` guard is JS falsiness on the optional parameter: it throws
both when the argument is absent and when it is the empty string. -/
def createStorageProvider (url : String) (apiKey : Option String) : Except String Provider :=
  if strContains url "onedrive" then .ok .oneDrive
  else if strContains url "drive.google" then
    match apiKey with
    | none => .error "Google Drive API key is required"
    | some k =>
        if k = "" then .error "Google Drive API key is required"
        else .ok (.googleDrive k)
  else .error "Unsupported storage provider"

instance {e a : Type} [DecidableEq e] [DecidableEq a] : DecidableEq (Except e a) := fun
  | .ok x, .ok y =>
      match decEq x y with
      | isTrue h => isTrue (by rw [h])
      | isFalse h => isFalse (fun hc => h (Except.ok.inj hc))
  | .ok _, .error _ => isFalse (fun hc => Except.noConfusion hc)
  | .error _, .ok _ => isFalse (fun hc => Except.noConfusion hc)
  | .error x, .error y =>
      match decEq x y with
      | isTrue h => isTrue (by rw [h])
      | isFalse h => isFalse (fun hc => h (Except.error.inj hc))

/-- The three logical fields of the JSON continuation token
(`{referenceImageId, nextIndex, jobId}`). -/
structure ContToken where
  referenceImageId : Option String
  nextIndex : Nat
  jobId : Nat
deriving DecidableEq, Repr

/-- One element of `provider.getImageBatch`: its position in the listing and
the Drive file id. The byte buffer is elided; it flows only into the
Rekognition call, which is modelled by the `cmp` oracle keyed by `index`. -/
structure DriveImage where
  index : Nat
  id : Option String
deriving DecidableEq, Repr

/-- Form fields of a POST /api/analyze/:jobId request. `continuationToken`:
`none` = field absent, `some (.error ())` = a string `JSON.parse` rejects,
`some (.ok t)` = a string parsing to `t`. `file` = whether a face image part
was uploaded (its bytes are only passed to the comparator oracle). -/
structure AnalyzeRequest where
  jobId : Nat
  awsAccessKeyId : Option String
  awsSecretAccessKey : Option String
  googleApiKey : Option String
  continuationToken : Option (Except Unit ContToken)
  file : Bool
deriving Repr

def isSpaceChar (c : Char) : Bool :=
  c == ' ' || c == '\t' || c == '\n' || c == '\r'

/-- `String.prototype.trim` (whitespace at both ends removed), on the
character list. -/
def trimChars (cs : List Char) : List Char :=
  ((cs.dropWhile isSpaceChar).reverse.dropWhile isSpaceChar).reverse

def trimStr (s : String) : String := ⟨trimChars s.data⟩

/-- `value?.trim()` followed by a JS falsiness check: an absent value or a
value trimming to the empty string is rejected. -/
def cleanCred (s : Option String) : Option String :=
  match s with
  | none => none
  | some v => if trimStr v = "" then none else some (trimStr v)

inductive TickError where
  | missingGoogleKey
  | missingAwsCredentials
  | jobNotFound
  | invalidTokenFormat
  | noFaceImage
  | scanFailed
  | referenceMissing
  | referenceBufferMissing
  | storeFailure
deriving DecidableEq, Repr

structure Processing where
  total : Nat
  processed : Nat
  isComplete : Bool
  nextIndex : Nat
deriving DecidableEq, Repr

/-- Body of a successful JSON response: the spread job record, the shown
results, the continuation token (already decoded), and the progress block. -/
structure TickOk where
  job : Job
  results : List ScanResult
  continuationToken : Option ContToken
  processing : Processing
deriving DecidableEq, Repr

/-- Full observable outcome of one handler invocation: HTTP-level result, the
job store afterwards, and how many times the directory scan and the
Rekognition comparator were invoked. -/
structure TickOutcome where
  resp : Except TickError TickOk
  store : Store
  scanCalls : Nat
  compareCalls : Nat
deriving DecidableEq, Repr

def googleUrl (id : Option String) : Option String :=
  id.map (fun s => "https://lh3.googleusercontent.com/d/" ++ s ++ "=s1000")

/-- JS template literal: an `undefined` id is interpolated as "undefined". -/
def driveViewUrl (id : Option String) : String :=
  "https://drive.google.com/file/d/" ++ (match id with | some s => s | none => "undefined")
    ++ "/view"

/-- One Rekognition `CompareFaces` call for one image (routes.ts lines
284-311): the oracle value is the thrown error message, or
`FaceMatches?.[0]` (outer Option) with its `Similarity` field (inner Option;
`|| 0` defaults a missing similarity to 0). -/
def mkEntry (img : DriveImage) (outcome : Except String (Option (Option Rat))) : ScanResult :=
  match outcome with
  | .ok bestMatch =>
      { imageId := img.index + 1
        similarity := (bestMatch.map (fun s => s.getD 0)).getD 0
        matched := bestMatch.isSome
        error := none
        url := googleUrl img.id
        driveUrl := some (driveViewUrl img.id) }
  | .error msg =>
      { imageId := img.index + 1
        similarity := 0
        matched := false
        error := some msg
        url := googleUrl img.id
        driveUrl := some (driveViewUrl img.id) }

inductive LoopOutcome where
  | timedOut (results : List ScanResult) (stopIndex : Nat) (calls : Nat)
  | finished (results : List ScanResult) (calls : Nat)
deriving DecidableEq, Repr

/-- The `for (const image of imagesBatch)` loop (routes.ts lines 246-322):
before each image the elapsed-time check may stop the batch (`late` is indexed
by loop position); otherwise one comparator call is made and its result pushed. -/
def processLoop (cmp : Nat → Except String (Option (Option Rat))) (late : Nat → Bool)
    (results : List ScanResult) (pos calls : Nat) : List DriveImage → LoopOutcome
  | [] => .finished results calls
  | img :: rest =>
      if late pos then .timedOut results img.index calls
      else processLoop cmp late (results ++ [mkEntry img (cmp img.index)]) (pos + 1)
        (calls + 1) rest

/-- Bootstrap branch of the handler (routes.ts lines 138-171): no
continuation token; scan the directory, persist empty results with status
`processing`, answer with a `nextIndex = 0` token; no comparisons. -/
def tickBootstrap (req : AnalyzeRequest) (store : Store) (job : Job)
    (scan : Except String Nat) : TickOutcome :=
  match scan with
  | .error _ => ⟨.error .scanFailed, store, 1, 0⟩
  | .ok _ =>
      let initialToken : ContToken := ⟨some "reference", 0, req.jobId⟩
      match updateScanJobResults store req.jobId [] (some "processing") with
      | .error _ => ⟨.error .storeFailure, store, 1, 0⟩
      | .ok (store1, _) =>
          ⟨.ok { job := job, results := [], continuationToken := some initialToken,
                 processing := ⟨job.imageCount, 0, false, 0⟩ },
           store1, 1, 0⟩

/-- Continuation branch of the handler (routes.ts lines 173-353). -/
def tickContinue (req : AnalyzeRequest) (store : Store) (job : Job) (t : ContToken)
    (fetch : Nat → Nat → List DriveImage)
    (cmp : Nat → Except String (Option (Option Rat)))
    (setupLate : Bool) (lateAt : Nat → Bool) : TickOutcome :=
  let startIndex := t.nextIndex
  let referenceImageId := t.referenceImageId
  let results := job.results.getD []
  let step1 : Except TickError Bool :=
    if referenceImageId = some "reference" then
      if req.file then .ok true else .error .referenceMissing
    else .ok false
  match step1 with
  | .error e => ⟨.error e, store, 0, 0⟩
  | .ok hasRef =>
    if setupLate then
      ⟨.ok { job := job, results := results, continuationToken := some t,
             processing := ⟨job.imageCount, results.length, false, startIndex⟩ },
       store, 0, 0⟩
    else if hasRef = false then ⟨.error .referenceBufferMissing, store, 0, 0⟩
    else
      let imagesBatch := fetch startIndex 4
      if imagesBatch = [] then
        ⟨.ok { job := job, results := results, continuationToken := none,
               processing := ⟨job.imageCount, results.length, true, startIndex⟩ },
         store, 0, 0⟩
      else
        match processLoop cmp lateAt results 0 0 imagesBatch with
        | .timedOut rs stopIndex calls =>
            match updateScanJobResults store req.jobId rs (some "processing") with
            | .error _ => ⟨.error .storeFailure, store, 0, calls⟩
            | .ok (store1, _) =>
                ⟨.ok { job := job, results := rs,
                       continuationToken := some ⟨referenceImageId, stopIndex, req.jobId⟩,
                       processing := ⟨job.imageCount, rs.length, false, stopIndex⟩ },
                 store1, 0, calls⟩
        | .finished rs calls =>
            match updateScanJobResults store req.jobId rs (some "processing") with
            | .error _ => ⟨.error .storeFailure, store, 0, calls⟩
            | .ok (store1, _) =>
                let lastProcessedIndex :=
                  if imagesBatch = [] then startIndex
                  else (imagesBatch.map DriveImage.index).foldl max 0 + 1
                let isComplete : Bool := decide (lastProcessedIndex ≥ job.imageCount)
                let nextToken : Option ContToken :=
                  if isComplete then none
                  else some ⟨referenceImageId, lastProcessedIndex, req.jobId⟩
                let finalStatus := if isComplete then "complete" else "processing"
                match updateScanJobResults store1 req.jobId rs (some finalStatus) with
                | .error _ => ⟨.error .storeFailure, store1, 0, calls⟩
                | .ok (store2, updatedJob) =>
                    ⟨.ok { job := updatedJob, results := rs,
                           continuationToken := nextToken,
                           processing := ⟨job.imageCount, rs.length, isComplete,
                                          lastProcessedIndex⟩ },
                     store2, 0, calls⟩

/-- One invocation of POST /api/analyze/:jobId (routes.ts lines 68-359, first
variant). Oracles: `scan` is `provider.scanDirectory`, `fetch` is
`provider.getImageBatch(start, count)`, `cmp` the Rekognition call per image
index, `setupLate` the line-201 elapsed-time check, `lateAt k` the in-loop
elapsed-time check before the k-th image of the batch. -/
def tickV1 (req : AnalyzeRequest) (store : Store)
    (scan : Except String Nat) (fetch : Nat → Nat → List DriveImage)
    (cmp : Nat → Except String (Option (Option Rat)))
    (setupLate : Bool) (lateAt : Nat → Bool) : TickOutcome :=
  match cleanCred req.googleApiKey with
  | none => ⟨.error .missingGoogleKey, store, 0, 0⟩
  | some _ =>
    match cleanCred req.awsAccessKeyId, cleanCred req.awsSecretAccessKey with
    | none, _ => ⟨.error .missingAwsCredentials, store, 0, 0⟩
    | some _, none => ⟨.error .missingAwsCredentials, store, 0, 0⟩
    | some _, some _ =>
      match getScanJob store req.jobId with
      | none => ⟨.error .jobNotFound, store, 0, 0⟩
      | some job =>
        match req.continuationToken with
        | some (.error _) => ⟨.error .invalidTokenFormat, store, 0, 0⟩
        | none =>
            if req.file then tickBootstrap req store job scan
            else ⟨.error .noFaceImage, store, 0, 0⟩
        | some (.ok t) => tickContinue req store job t fetch cmp setupLate lateAt


/-- Fixture: a job mid-run (post-bootstrap): one image, empty persisted
results. -/
def fixJob1 : Job :=
  ⟨1, "https://drive.google.com/drive/folders/abc", "gdrive", 1, "processing", some [], "t0"⟩

def fixStore1 : Store := [(1, fixJob1)]

/-- Fixture: a one-image listing: a batch fetch from index 0 yields the single
image; any later start index is past the end. -/
def fixFetch1 : Nat → Nat → List DriveImage :=
  fun s _ => if s = 0 then [⟨0, some "f0"⟩] else []

/-- Fixture: a continuation request for job 1 carrying the job's own
(matching) token. -/
def fixReq1 : AnalyzeRequest :=
  ⟨1, some "AK", some "SK", some "GK", some (.ok ⟨some "reference", 0, 1⟩), true⟩

/-- Fixture: a comparator that always reports a similarity-80 match. -/
def fixCmp80 : Nat → Except String (Option (Option Rat)) :=
  fun _ => .ok (some (some 80))

/-- Fixture: a job with three images and empty persisted results. -/
def fixJob3 : Job :=
  ⟨1, "https://drive.google.com/drive/folders/abc", "gdrive", 3, "processing", some [], "t0"⟩

/-- Fixture: a freshly scanned job with five images, not yet processed. -/
def fixJob5 : Job :=
  ⟨1, "https://drive.google.com/drive/folders/abc", "gdrive", 5, "pending", none, "t0"⟩

/-- Fixture: an empty-folder job (zero images). -/
def fixJob0 : Job :=
  ⟨1, "https://drive.google.com/drive/folders/abc", "gdrive", 0, "pending", none, "t0"⟩


/-- Fixture: a two-image job mid-run, empty persisted results. -/
def fixJob2 : Job :=
  ⟨1, "https://drive.google.com/drive/folders/abc", "gdrive", 2, "processing", some [], "t0"⟩

/-- Fixture: a two-image listing. -/
def fixFetch2 : Nat → Nat → List DriveImage :=
  fun s _ => if s = 0 then [⟨0, some "f0"⟩, ⟨1, some "f1"⟩] else []

/-- Fixture: a comparator failing on image index 0 only. -/
def fixCmpErr0 : Nat → Except String (Option (Option Rat)) :=
  fun i => if i = 0 then .error "boom" else .ok (some (some 90))


theorem mergeStep_eq_stepR (L : List ScanResult) (r : ScanResult) : mergeStep L r = stepR r L := by
  induction L with
  | nil => rfl
  | cons e rest ih =>
    by_cases h : e.imageId = r.imageId
    · simp [mergeStep, findIndex, stepR, h]
    · have hb : (e.imageId == r.imageId) = false := by simp [h]
      simp only [stepR, h, if_false]
      rw [← ih]
      simp only [mergeStep, findIndex, hb, Bool.false_eq_true, if_false]
      cases hh : findIndex (fun e => e.imageId == r.imageId) rest with
      | none => rfl
      | some i => rfl

theorem mergeResults_cons (E : List ScanResult) (r : ScanResult) (B : List ScanResult) :
    mergeResults E (r :: B) = mergeResults (stepR r E) B := by
  simp [mergeResults, List.foldl_cons, mergeStep_eq_stepR]

theorem mem_keys_stepR (r : ScanResult) (L : List ScanResult) :
    r.imageId ∈ keys (stepR r L) := by
  induction L with
  | nil => simp [stepR, keys]
  | cons e rest ih =>
    by_cases h : e.imageId = r.imageId
    · simp [stepR, h, keys]
    · simp only [stepR, h, if_false, keys, List.map_cons, List.mem_cons]
      exact Or.inr ih

theorem keys_mono_stepR (r : ScanResult) (L : List ScanResult) (i : Nat) (h : i ∈ keys L) :
    i ∈ keys (stepR r L) := by
  induction L with
  | nil => simp [keys] at h
  | cons e rest ih =>
    simp only [keys, List.map_cons, List.mem_cons] at h
    by_cases he : e.imageId = r.imageId
    · simp only [stepR, he, if_true, keys, List.map_cons, List.mem_cons]
      rcases h with h | h
      · exact Or.inl (h.trans he)
      · exact Or.inr h
    · simp only [stepR, he, if_false, keys, List.map_cons, List.mem_cons]
      rcases h with h | h
      · exact Or.inl h
      · exact Or.inr (ih h)

theorem keys_mono_merge (E B : List ScanResult) (i : Nat) (h : i ∈ keys E) :
    i ∈ keys (mergeResults E B) := by
  induction B generalizing E with
  | nil => exact h
  | cons b B ih => rw [mergeResults_cons]; exact ih _ (keys_mono_stepR b E i h)

theorem stepR_stepR_same (b c : ScanResult) (M : List ScanResult)
    (h : c.imageId = b.imageId) : stepR c (stepR b M) = stepR c M := by
  induction M with
  | nil => simp [stepR, h]
  | cons e rest ih =>
    by_cases he : e.imageId = b.imageId
    · simp [stepR, he, h, he.trans h.symm]
    · have hec : ¬ e.imageId = c.imageId := fun hc => he (hc.trans h)
      simp only [stepR, he, if_false, hec]
      rw [ih]

theorem stepR_comm (b c : ScanResult) (M : List ScanResult)
    (hb : b.imageId ∈ keys M) (hne : c.imageId ≠ b.imageId) :
    stepR c (stepR b M) = stepR b (stepR c M) := by
  have hbc : b.imageId ≠ c.imageId := fun hx => hne hx.symm
  induction M with
  | nil => simp [keys] at hb
  | cons e rest ih =>
    simp only [keys, List.map_cons, List.mem_cons] at hb
    by_cases heb : e.imageId = b.imageId
    · have hec : ¬ e.imageId = c.imageId := fun hc => hne (hc.symm.trans heb)
      simp [stepR, heb, hec, hbc, hne]
    · by_cases hec : e.imageId = c.imageId
      · simp [stepR, heb, hec, hne]
      · have hb' : b.imageId ∈ keys rest := by
          rcases hb with h | h
          · exact absurd h.symm heb
          · exact h
        simp only [stepR, heb, hec, if_false]
        rw [ih hb']

theorem findKey_stepR_self (r : ScanResult) (L : List ScanResult) :
    findKey r.imageId (stepR r L) = some r := by
  induction L with
  | nil => simp [stepR, findKey]
  | cons e rest ih =>
    by_cases h : e.imageId = r.imageId
    · simp [stepR, h, findKey]
    · have hb : (e.imageId == r.imageId) = false := by simp [h]
      simp only [stepR, h, if_false, findKey, List.find?_cons, hb]
      exact ih

theorem findKey_stepR_ne (r : ScanResult) (L : List ScanResult) (i : Nat)
    (h : r.imageId ≠ i) : findKey i (stepR r L) = findKey i L := by
  have hri : (r.imageId == i) = false := by simp [h]
  induction L with
  | nil => simp [stepR, findKey, hri]
  | cons e rest ih =>
    by_cases he : e.imageId = r.imageId
    · have hei : (e.imageId == i) = false := by simp [he ▸ h]
      simp [stepR, he, findKey, List.find?_cons, hri, hei]
    · simp only [stepR, he, if_false, findKey, List.find?_cons]
      by_cases hei : e.imageId = i
      · simp [hei]
      · have hei' : (e.imageId == i) = false := by simp [hei]
        simp only [hei']
        exact ih

theorem findKey_merge_not_in_batch (E B : List ScanResult) (i : Nat)
    (h : i ∉ keys B) : findKey i (mergeResults E B) = findKey i E := by
  induction B generalizing E with
  | nil => rfl
  | cons b B ih =>
    simp only [keys, List.map_cons, List.mem_cons, not_or] at h
    rw [mergeResults_cons, ih _ (by simpa [keys] using h.2),
        findKey_stepR_ne b E i (fun hc => h.1 hc.symm)]

theorem stepR_fix (r : ScanResult) (L : List ScanResult)
    (h : findKey r.imageId L = some r) : stepR r L = L := by
  induction L with
  | nil => simp [findKey] at h
  | cons e rest ih =>
    by_cases he : e.imageId = r.imageId
    · have : e = r := by
        simpa [findKey, List.find?_cons, he] using h
      simp [stepR, he, this]
    · have hb : (e.imageId == r.imageId) = false := by simp [he]
      simp only [findKey, List.find?_cons, hb] at h
      simp only [stepR, he, if_false]
      rw [ih h]

theorem merge_absorb (b : ScanResult) (B M : List ScanResult)
    (hb : b.imageId ∈ keys M) (hB : b.imageId ∈ keys B) :
    mergeResults (stepR b M) B = mergeResults M B := by
  induction B generalizing M with
  | nil => simp [keys] at hB
  | cons c B ih =>
    rw [mergeResults_cons, mergeResults_cons]
    by_cases hc : c.imageId = b.imageId
    · rw [stepR_stepR_same b c M hc]
    · simp only [keys, List.map_cons, List.mem_cons] at hB
      have hB' : b.imageId ∈ keys B := by
        rcases hB with h | h
        · exact absurd h.symm hc
        · exact h
      rw [stepR_comm b c M hb hc]
      exact ih (stepR c M) (keys_mono_stepR c M _ hb) hB'

theorem merge_idem (B R : List ScanResult) :
    mergeResults (mergeResults R B) B = mergeResults R B := by
  induction B generalizing R with
  | nil => rfl
  | cons b B ih =>
    have h1 : mergeResults R (b :: B) = mergeResults (stepR b R) B := mergeResults_cons R b B
    rw [h1, mergeResults_cons]
    by_cases hB : b.imageId ∈ keys B
    · have hbM : b.imageId ∈ keys (mergeResults (stepR b R) B) :=
        keys_mono_merge _ _ _ (mem_keys_stepR b R)
      rw [merge_absorb b B _ hbM hB]
      exact ih (stepR b R)
    · have hfix : findKey b.imageId (mergeResults (stepR b R) B) = some b := by
        rw [findKey_merge_not_in_batch _ _ _ hB, findKey_stepR_self]
      rw [stepR_fix b _ hfix]
      exact ih (stepR b R)

theorem lastWith_not_mem (i : Nat) (L : List ScanResult) (h : i ∉ keys L) :
    lastWith i L = none := by
  induction L with
  | nil => rfl
  | cons e rest ih =>
    simp only [keys, List.map_cons, List.mem_cons, not_or] at h
    have h1 : ¬ e.imageId = i := fun hc => h.1 hc.symm
    simp [lastWith, ih (by simpa [keys] using h.2), h1]

theorem lastWith_cons_ne (i : Nat) (r : ScanResult) (rest : List ScanResult)
    (h : r.imageId ≠ i) : lastWith i (r :: rest) = lastWith i rest := by
  cases hv : lastWith i rest with
  | none => simp [lastWith, hv, h]
  | some v => simp [lastWith, hv]

theorem lastWith_mem_some (i : Nat) (L : List ScanResult) (h : i ∈ keys L) :
    ∃ v, lastWith i L = some v := by
  induction L with
  | nil => simp [keys] at h
  | cons e rest ih =>
    simp only [keys, List.map_cons, List.mem_cons] at h
    cases hv : lastWith i rest with
    | some v => exact ⟨v, by simp [lastWith, hv]⟩
    | none =>
      rcases h with h | h
      · exact ⟨e, by simp [lastWith, hv, h.symm]⟩
      · obtain ⟨v, hv2⟩ := ih h
        rw [hv2] at hv; cases hv

theorem findKey_merge_in_batch (E B : List ScanResult) (i : Nat) (hB : i ∈ keys B) :
    findKey i (mergeResults E B) = lastWith i B := by
  induction B generalizing E with
  | nil => simp [keys] at hB
  | cons b B ih =>
    rw [mergeResults_cons]
    by_cases hbi : b.imageId = i
    · by_cases hmem : i ∈ keys B
      · rw [ih _ hmem]
        obtain ⟨v, hv⟩ := lastWith_mem_some i B hmem
        simp [lastWith, hv]
      · rw [findKey_merge_not_in_batch _ _ _ hmem, ← hbi, findKey_stepR_self]
        simp [lastWith, lastWith_not_mem i B hmem, hbi]
    · have hmem : i ∈ keys B := by
        simp only [keys, List.map_cons, List.mem_cons] at hB
        rcases hB with h | h
        · exact absurd h.symm hbi
        · exact h
      rw [ih _ hmem, lastWith_cons_ne _ _ _ hbi]

theorem keys_merge_mem_batch (E B : List ScanResult) (i : Nat) (hB : i ∈ keys B) :
    i ∈ keys (mergeResults E B) := by
  induction B generalizing E with
  | nil => simp [keys] at hB
  | cons b B ih =>
    rw [mergeResults_cons]
    by_cases hbi : b.imageId = i
    · exact keys_mono_merge _ _ _ (hbi ▸ mem_keys_stepR b E)
    · have hmem : i ∈ keys B := by
        simp only [keys, List.map_cons, List.mem_cons] at hB
        rcases hB with h | h
        · exact absurd h.symm hbi
        · exact h
      exact ih _ hmem

theorem keys_stepR_of_mem (r : ScanResult) (L : List ScanResult)
    (h : r.imageId ∈ keys L) : keys (stepR r L) = keys L := by
  induction L with
  | nil => simp [keys] at h
  | cons e rest ih =>
    simp only [keys, List.map_cons, List.mem_cons] at h
    by_cases he : e.imageId = r.imageId
    · simp only [stepR]
      rw [if_pos he]
      simp [keys, he]
    · have h' : r.imageId ∈ keys rest := by
        rcases h with h | h
        · exact absurd h.symm he
        · exact h
      simp only [stepR, he, if_false, keys, List.map_cons]
      rw [show List.map ScanResult.imageId (stepR r rest) = keys (stepR r rest) from rfl, ih h']
      rfl

theorem keys_stepR_of_not_mem (r : ScanResult) (L : List ScanResult)
    (h : r.imageId ∉ keys L) : keys (stepR r L) = keys L ++ [r.imageId] := by
  induction L with
  | nil => simp [stepR, keys]
  | cons e rest ih =>
    simp only [keys, List.map_cons, List.mem_cons, not_or] at h
    have he : ¬ e.imageId = r.imageId := fun hc => h.1 hc.symm
    simp only [stepR, he, if_false, keys, List.map_cons]
    rw [show List.map ScanResult.imageId (stepR r rest) = keys (stepR r rest) from rfl,
        ih (by simpa [keys] using h.2)]
    rfl

theorem nodup_keys_stepR (r : ScanResult) (L : List ScanResult)
    (hN : (keys L).Nodup) : (keys (stepR r L)).Nodup := by
  by_cases h : r.imageId ∈ keys L
  · rw [keys_stepR_of_mem r L h]; exact hN
  · rw [keys_stepR_of_not_mem r L h]
    refine List.Nodup.append hN (List.nodup_singleton _) ?_
    intro a ha hb
    simp only [List.mem_singleton] at hb
    exact h (hb ▸ ha)

theorem nodup_keys_merge (E B : List ScanResult) (hN : (keys E).Nodup) :
    (keys (mergeResults E B)).Nodup := by
  induction B generalizing E with
  | nil => exact hN
  | cons b B ih => rw [mergeResults_cons]; exact ih _ (nodup_keys_stepR b E hN)

theorem countKey_not_mem (i : Nat) (L : List ScanResult) (h : i ∉ keys L) :
    countKey i L = 0 := by
  induction L with
  | nil => rfl
  | cons e rest ih =>
    simp only [keys, List.map_cons, List.mem_cons, not_or] at h
    have h1 : (e.imageId == i) = false := by
      simp only [beq_eq_false_iff_ne]; exact fun hc => h.1 hc.symm
    simp only [countKey, List.filter_cons, h1]
    exact ih (by simpa [keys] using h.2)

theorem countKey_nodup_mem (i : Nat) (L : List ScanResult)
    (hN : (keys L).Nodup) (h : i ∈ keys L) : countKey i L = 1 := by
  induction L with
  | nil => simp [keys] at h
  | cons e rest ih =>
    simp only [keys, List.map_cons, List.mem_cons] at h
    simp only [keys, List.map_cons, List.nodup_cons] at hN
    by_cases he : e.imageId = i
    · have hrest : i ∉ keys rest := fun hc => hN.1 (he ▸ hc)
      have h1 : (e.imageId == i) = true := by simp [he]
      have hz := countKey_not_mem i rest hrest
      simp only [countKey] at hz ⊢
      simp [List.filter_cons, h1, hz]
    · have h' : i ∈ keys rest := by
        rcases h with h | h
        · exact absurd h.symm he
        · exact h
      have h1 : (e.imageId == i) = false := by simp [he]
      simp only [countKey, List.filter_cons, h1]
      exact ih hN.2 h'

theorem getScanJob_map_replace (store : Store) (id : Nat) (j : Job)
    (h : (store.find? (fun p => p.1 == id)).isSome = true) :
    getScanJob (store.map (fun p => if p.1 == id then (id, j) else p)) id = some j := by
  induction store with
  | nil => simp [List.find?] at h
  | cons p rest ih =>
    by_cases hp : p.1 = id
    · have hp' : (p.1 == id) = true := by simp [hp]
      simp only [List.map_cons]
      rw [if_pos hp']
      simp [getScanJob, List.find?_cons]
    · have hp' : (p.1 == id) = false := by simp [hp]
      have h2 : (rest.find? (fun p => p.1 == id)).isSome = true := by
        simpa [List.find?_cons, hp'] using h
      simp only [List.map_cons, hp', Bool.false_eq_true, if_false, getScanJob,
        List.find?_cons, hp']
      exact ih h2

theorem getScanJob_append_new (store : Store) (id : Nat) (j : Job)
    (h : (store.find? (fun p => p.1 == id)).isSome = false) :
    getScanJob (store ++ [(id, j)]) id = some j := by
  induction store with
  | nil => simp [getScanJob, List.find?]
  | cons p rest ih =>
    by_cases hp : p.1 = id
    · simp [List.find?_cons, hp] at h
    · have hp' : (p.1 == id) = false := by simp [hp]
      have h2 : (rest.find? (fun p => p.1 == id)).isSome = false := by
        simpa [List.find?_cons, hp'] using h
      simp only [List.cons_append, getScanJob, List.find?_cons, hp']
      exact ih h2

theorem getScanJob_setJob (store : Store) (id : Nat) (j : Job) :
    getScanJob (setJob store id j) id = some j := by
  by_cases h : (store.find? (fun p => p.1 == id)).isSome = true
  · simp only [setJob, h, if_true]
    exact getScanJob_map_replace store id j h
  · have h' : (store.find? (fun p => p.1 == id)).isSome = false := by
      cases hx : (store.find? (fun p => p.1 == id)).isSome
      · rfl
      · exact absurd hx h
    simp only [setJob, h', Bool.false_eq_true, if_false]
    exact getScanJob_append_new store id j h'

theorem updateScanJobResults_of_get (store : Store) (id : Nat) (rs : List ScanResult)
    (st : Option String) (job : Job) (hj : getScanJob store id = some job) :
    updateScanJobResults store id rs st =
      .ok (setJob store id { job with results := some rs, status := st.getD "complete" },
           { job with results := some rs, status := st.getD "complete" }) := by
  simp [updateScanJobResults, hj]

theorem processLoop_no_timeout (cmp : Nat → Except String (Option (Option Rat)))
    (rs : List ScanResult) (pos calls : Nat) (batch : List DriveImage) :
    processLoop cmp (fun _ => false) rs pos calls batch
      = .finished (rs ++ batch.map (fun img => mkEntry img (cmp img.index)))
          (calls + batch.length) := by
  induction batch generalizing rs pos calls with
  | nil => simp [processLoop]
  | cons img rest ih =>
    simp only [processLoop, Bool.false_eq_true, if_false]
    rw [ih]
    simp [List.append_assoc]
    omega

theorem tickV1_continue_eq (req : AnalyzeRequest) (store : Store) (job : Job) (t : ContToken)
    (scan : Except String Nat) (fetch : Nat → Nat → List DriveImage)
    (cmp : Nat → Except String (Option (Option Rat))) (setupLate : Bool) (lateAt : Nat → Bool)
    (g a s : String)
    (hg : cleanCred req.googleApiKey = some g)
    (ha : cleanCred req.awsAccessKeyId = some a)
    (hs : cleanCred req.awsSecretAccessKey = some s)
    (hj : getScanJob store req.jobId = some job)
    (ht : req.continuationToken = some (.ok t)) :
    tickV1 req store scan fetch cmp setupLate lateAt
      = tickContinue req store job t fetch cmp setupLate lateAt := by
  simp only [tickV1, hg, ha, hs, hj, ht]

theorem tickV1_bootstrap_eq (req : AnalyzeRequest) (store : Store) (job : Job)
    (scan : Except String Nat) (fetch : Nat → Nat → List DriveImage)
    (cmp : Nat → Except String (Option (Option Rat))) (setupLate : Bool) (lateAt : Nat → Bool)
    (g a s : String)
    (hg : cleanCred req.googleApiKey = some g)
    (ha : cleanCred req.awsAccessKeyId = some a)
    (hs : cleanCred req.awsSecretAccessKey = some s)
    (hj : getScanJob store req.jobId = some job)
    (ht : req.continuationToken = none) (hf : req.file = true) :
    tickV1 req store scan fetch cmp setupLate lateAt = tickBootstrap req store job scan := by
  simp only [tickV1, hg, ha, hs, hj, ht, hf, if_true]

theorem tickBootstrap_ok (req : AnalyzeRequest) (store : Store) (job : Job) (n : Nat)
    (hj : getScanJob store req.jobId = some job) :
    tickBootstrap req store job (.ok n)
      = ⟨.ok { job := job, results := [],
               continuationToken := some ⟨some "reference", 0, req.jobId⟩,
               processing := ⟨job.imageCount, 0, false, 0⟩ },
         setJob store req.jobId { job with results := some [], status := "processing" },
         1, 0⟩ := by
  simp only [tickBootstrap,
    updateScanJobResults_of_get store req.jobId [] (some "processing") job hj,
    Option.getD_some]

theorem tickContinue_empty (req : AnalyzeRequest) (store : Store) (job : Job) (t : ContToken)
    (fetch : Nat → Nat → List DriveImage) (cmp : Nat → Except String (Option (Option Rat)))
    (lateAt : Nat → Bool)
    (hr : t.referenceImageId = some "reference") (hf : req.file = true)
    (hemp : fetch t.nextIndex 4 = []) :
    tickContinue req store job t fetch cmp false lateAt
      = ⟨.ok { job := job, results := job.results.getD [],
               continuationToken := none,
               processing := ⟨job.imageCount, (job.results.getD []).length, true, t.nextIndex⟩ },
         store, 0, 0⟩ := by
  simp only [tickContinue, hr, if_true, hf, Bool.false_eq_true, Bool.true_eq_false, if_false,
    hemp, reduceIte]

theorem tickContinue_finished (req : AnalyzeRequest) (store : Store) (job : Job) (t : ContToken)
    (fetch : Nat → Nat → List DriveImage) (cmp : Nat → Except String (Option (Option Rat)))
    (hr : t.referenceImageId = some "reference") (hf : req.file = true)
    (hj : getScanJob store req.jobId = some job)
    (hne : fetch t.nextIndex 4 ≠ []) :
    tickContinue req store job t fetch cmp false (fun _ => false)
      = ⟨.ok { job := { job with
                 results := some (job.results.getD []
                   ++ (fetch t.nextIndex 4).map (fun img => mkEntry img (cmp img.index))),
                 status := if decide (((fetch t.nextIndex 4).map DriveImage.index).foldl max 0
                       + 1 ≥ job.imageCount)
                   then "complete" else "processing" },
               results := job.results.getD []
                 ++ (fetch t.nextIndex 4).map (fun img => mkEntry img (cmp img.index)),
               continuationToken :=
                 if decide (((fetch t.nextIndex 4).map DriveImage.index).foldl max 0 + 1
                     ≥ job.imageCount)
                 then none
                 else some ⟨t.referenceImageId,
                   ((fetch t.nextIndex 4).map DriveImage.index).foldl max 0 + 1, req.jobId⟩,
               processing := ⟨job.imageCount,
                 (job.results.getD []
                   ++ (fetch t.nextIndex 4).map (fun img => mkEntry img (cmp img.index))).length,
                 decide (((fetch t.nextIndex 4).map DriveImage.index).foldl max 0 + 1
                   ≥ job.imageCount),
                 ((fetch t.nextIndex 4).map DriveImage.index).foldl max 0 + 1⟩ },
         setJob (setJob store req.jobId
             { job with
               results := some (job.results.getD []
                 ++ (fetch t.nextIndex 4).map (fun img => mkEntry img (cmp img.index))),
               status := "processing" })
           req.jobId
           { job with
             results := some (job.results.getD []
               ++ (fetch t.nextIndex 4).map (fun img => mkEntry img (cmp img.index))),
             status := if decide (((fetch t.nextIndex 4).map DriveImage.index).foldl max 0 + 1
                 ≥ job.imageCount)
               then "complete" else "processing" },
         0, (fetch t.nextIndex 4).length⟩ := by
  simp only [tickContinue, hr, hf, Bool.false_eq_true, Bool.true_eq_false, if_false, if_true,
    hne, reduceIte, processLoop_no_timeout, Nat.zero_add]
  rw [updateScanJobResults_of_get store req.jobId _ (some "processing") job hj]
  simp only [Option.getD_some]
  rw [updateScanJobResults_of_get _ req.jobId _ _ _ (getScanJob_setJob store req.jobId _)]
  simp only [Option.getD_some]

theorem c4_merge_idempotent (R B : List ScanResult) :
    mergeResults (mergeResults R B) B = mergeResults R B :=
  merge_idem B R

/-- C3 counterexample: with an existing entry of similarity 90 and an incoming
entry of similarity 10 for the same `imageId`, the code's merge loop keeps the
incoming lower-similarity entry, so "replace only if the incoming similarity is
strictly higher (ties keep the existing entry)" is false on the code. -/
theorem c3_counterexample :
    mergeResults [⟨1, 90, true, none, none, none⟩] [⟨1, 10, false, none, none, none⟩]
        = [⟨1, 10, false, none, none, none⟩]
      ∧ mergeResults [⟨1, 90, true, none, none, none⟩] [⟨1, 10, false, none, none, none⟩]
        ≠ [⟨1, 90, true, none, none, none⟩] :=
  ⟨rfl, by decide⟩

/-- C3 (amended): when the existing set (with unique keys) and the incoming
batch both contain an entry with `imageId = i`, the merged set keeps exactly
one entry for `i`, and that entry is the batch's last entry with that id: the
incoming entry always replaces the existing one, regardless of similarity. -/
theorem c3_merge_last_wins (E I : List ScanResult) (i : Nat)
    (hN : (keys E).Nodup) (hE : i ∈ keys E) (hI : i ∈ keys I) :
    countKey i (mergeResults E I) = 1 ∧ findKey i (mergeResults E I) = lastWith i I :=
  ⟨countKey_nodup_mem i _ (nodup_keys_merge E I hN) (keys_mono_merge E I i hE),
   findKey_merge_in_batch E I i hI⟩

/-- Witness for C3 (amended) at the counterexample's input. -/
theorem c3_merge_last_wins_witness :
    ((keys [(⟨1, 90, true, none, none, none⟩ : ScanResult)]).Nodup
      ∧ 1 ∈ keys [(⟨1, 90, true, none, none, none⟩ : ScanResult)]
      ∧ 1 ∈ keys [(⟨1, 10, false, none, none, none⟩ : ScanResult)])
    ∧ (countKey 1 (mergeResults [⟨1, 90, true, none, none, none⟩]
          [⟨1, 10, false, none, none, none⟩]) = 1
       ∧ findKey 1 (mergeResults [⟨1, 90, true, none, none, none⟩]
            [⟨1, 10, false, none, none, none⟩])
         = lastWith 1 [⟨1, 10, false, none, none, none⟩]) :=
  ⟨⟨by decide, by decide, by decide⟩,
   c3_merge_last_wins [⟨1, 90, true, none, none, none⟩] [⟨1, 10, false, none, none, none⟩] 1
     (by decide) (by decide) (by decide)⟩

/-- C9: for an existing job, `updateScanJobResults` with no explicit status
argument (modelled as `none`, so the `'complete'` default applies) replaces
the stored job's `results` and sets its status to "complete" regardless of the
prior status; reading the job back returns the completed record. -/
theorem c9_update_status_defaults_complete (store : Store) (id : Nat)
    (rs : List ScanResult) (job : Job) (hj : getScanJob store id = some job) :
    updateScanJobResults store id rs none
        = .ok (setJob store id { job with results := some rs, status := "complete" },
               { job with results := some rs, status := "complete" })
      ∧ getScanJob (setJob store id { job with results := some rs, status := "complete" }) id
        = some { job with results := some rs, status := "complete" } :=
  ⟨updateScanJobResults_of_get store id rs none job hj, getScanJob_setJob _ _ _⟩

/-- Witness for C9 on a job whose prior status is "processing". -/
theorem c9_update_status_defaults_complete_witness :
    getScanJob fixStore1 1 = some fixJob1
    ∧ (updateScanJobResults fixStore1 1 [] none
        = .ok (setJob fixStore1 1 { fixJob1 with results := some [], status := "complete" },
               { fixJob1 with results := some [], status := "complete" })
      ∧ getScanJob (setJob fixStore1 1 { fixJob1 with results := some [], status := "complete" }) 1
        = some { fixJob1 with results := some [], status := "complete" }) :=
  ⟨rfl, c9_update_status_defaults_complete fixStore1 1 [] fixJob1 rfl⟩

/-- C10: `createStorageProvider` dispatches on URL substrings in a fixed
order: 'onedrive' first (even when 'drive.google' also occurs), then
'drive.google' (which requires an API key, else the key-required error),
otherwise the unsupported-provider error. -/
theorem c10_provider_dispatch :
    (∀ url apiKey, strContains url "onedrive" = true →
        createStorageProvider url apiKey = .ok .oneDrive)
    ∧ (∀ url k, strContains url "onedrive" = false →
        strContains url "drive.google" = true → k ≠ "" →
        createStorageProvider url (some k) = .ok (.googleDrive k))
    ∧ (∀ url apiKey, strContains url "onedrive" = false →
        strContains url "drive.google" = true →
        (apiKey = none ∨ apiKey = some "") →
        createStorageProvider url apiKey = .error "Google Drive API key is required")
    ∧ (∀ url apiKey, strContains url "onedrive" = false →
        strContains url "drive.google" = false →
        createStorageProvider url apiKey = .error "Unsupported storage provider") := by
  refine ⟨fun url k h => ?_, fun url k h1 h2 h3 => ?_, fun url k h1 h2 h3 => ?_,
    fun url k h1 h2 => ?_⟩
  · simp [createStorageProvider, h]
  · simp [createStorageProvider, h1, h2, h3]
  · rcases h3 with h3 | h3 <;> subst h3 <;> simp [createStorageProvider, h1, h2]
  · simp [createStorageProvider, h1, h2]

/-- Witness for C10, covering every branch; the first URL contains both
'onedrive' and 'drive.google' and still yields the OneDrive provider, and the
key-required error fires both for an absent key and for an empty-string key. -/
theorem c10_provider_dispatch_witness :
    (strContains "https://onedrive.live.com/?q=drive.google" "onedrive" = true
      ∧ createStorageProvider "https://onedrive.live.com/?q=drive.google" (some "k")
          = .ok .oneDrive)
    ∧ (strContains "https://drive.google.com/drive/folders/abc" "onedrive" = false
      ∧ strContains "https://drive.google.com/drive/folders/abc" "drive.google" = true
      ∧ ("k" : String) ≠ ""
      ∧ createStorageProvider "https://drive.google.com/drive/folders/abc" (some "k")
          = .ok (.googleDrive "k")
      ∧ createStorageProvider "https://drive.google.com/drive/folders/abc" none
          = .error "Google Drive API key is required"
      ∧ createStorageProvider "https://drive.google.com/drive/folders/abc" (some "")
          = .error "Google Drive API key is required")
    ∧ (strContains "https://example.com/x" "onedrive" = false
      ∧ strContains "https://example.com/x" "drive.google" = false
      ∧ createStorageProvider "https://example.com/x" (some "k")
          = .error "Unsupported storage provider") :=
  ⟨⟨by decide, c10_provider_dispatch.1 _ (some "k") (by decide)⟩,
   ⟨by decide, by decide, by decide,
    c10_provider_dispatch.2.1 _ "k" (by decide) (by decide) (by decide),
    c10_provider_dispatch.2.2.1 _ none (by decide) (by decide) (Or.inl rfl),
    c10_provider_dispatch.2.2.1 _ (some "") (by decide) (by decide) (Or.inr rfl)⟩,
   ⟨by decide, by decide,
    c10_provider_dispatch.2.2.2 _ (some "k") (by decide) (by decide)⟩⟩

/-- C1 counterexample: a continuation call on job 1 whose token carries
`jobId = 999` is not rejected: the tick succeeds (it is not the invalid-token
error) and mutates the store, persisting the batch's results. -/
theorem c1_counterexample :
    (999 ≠ 1)
    ∧ (tickV1 ⟨1, some "AK", some "SK", some "GK", some (.ok ⟨some "reference", 0, 999⟩), true⟩
          fixStore1 (.ok 1) fixFetch1 (fun _ => .ok none) false (fun _ => false)).resp
        ≠ .error .invalidTokenFormat
    ∧ ((tickV1 ⟨1, some "AK", some "SK", some "GK", some (.ok ⟨some "reference", 0, 999⟩), true⟩
          fixStore1 (.ok 1) fixFetch1 (fun _ => .ok none) false (fun _ => false)).resp.toOption.isSome
        = true)
    ∧ ((getScanJob (tickV1
            ⟨1, some "AK", some "SK", some "GK", some (.ok ⟨some "reference", 0, 999⟩), true⟩
            fixStore1 (.ok 1) fixFetch1 (fun _ => .ok none) false (fun _ => false)).store 1).map
          (fun j => (j.status, (j.results.getD []).length)) = some ("complete", 1))
    ∧ (tickV1 ⟨1, some "AK", some "SK", some "GK", some (.ok ⟨some "reference", 0, 999⟩), true⟩
          fixStore1 (.ok 1) fixFetch1 (fun _ => .ok none) false (fun _ => false)).store
        ≠ fixStore1 :=
  ⟨by decide, by decide, by decide, by decide, by decide⟩

/-- C1 (amended): the handler never reads the token's `jobId` field: when the
setup-time budget check has not fired (that early return merely echoes the
supplied token back verbatim), a tick whose token names one `jobId` behaves
exactly like the same tick whose token names any other `jobId` — in
particular like the call with the matching id; only a token that fails JSON
parsing is rejected. -/
theorem c1_token_jobid_ignored (j : Nat) (ak sk gk r : Option String) (n a b : Nat)
    (f : Bool) (store : Store) (scan : Except String Nat)
    (fetch : Nat → Nat → List DriveImage) (cmp : Nat → Except String (Option (Option Rat)))
    (lateAt : Nat → Bool) :
    tickV1 ⟨j, ak, sk, gk, some (.ok ⟨r, n, a⟩), f⟩ store scan fetch cmp false lateAt
      = tickV1 ⟨j, ak, sk, gk, some (.ok ⟨r, n, b⟩), f⟩ store scan fetch cmp false lateAt :=
  rfl

/-- C2 is violated by the first-variant handler: re-sending the same
continuation token (a client retry) reloads the persisted results and appends
the batch's entries again, so the job's persisted result set ends with two
entries for item id 1. -/
theorem c2_duplicate_after_retry :
    (getScanJob (tickV1 fixReq1
          (tickV1 fixReq1 fixStore1 (.ok 1) fixFetch1 fixCmp80 false (fun _ => false)).store
          (.ok 1) fixFetch1 fixCmp80 false (fun _ => false)).store 1).map
        (fun j => keys (j.results.getD [])) = some [1, 1]
    ∧ (getScanJob (tickV1 fixReq1
          (tickV1 fixReq1 fixStore1 (.ok 1) fixFetch1 fixCmp80 false (fun _ => false)).store
          (.ok 1) fixFetch1 fixCmp80 false (fun _ => false)).store 1).map
        (fun j => countKey 1 (j.results.getD [])) = some 2 :=
  ⟨by decide, by decide⟩

/-- C5: the bootstrap tick (no continuation token), given credentials, an
uploaded face image, an existing job and a successful scan: invokes the
directory scan exactly once, persists an empty result set with status
"processing", answers with a `nextIndex = 0` token, and invokes the
comparator zero times. -/
theorem c5_bootstrap_tick (req : AnalyzeRequest) (store : Store) (job : Job)
    (scan : Except String Nat) (fetch : Nat → Nat → List DriveImage)
    (cmp : Nat → Except String (Option (Option Rat))) (setupLate : Bool)
    (lateAt : Nat → Bool) (n : Nat) (g a s : String)
    (hg : cleanCred req.googleApiKey = some g)
    (ha : cleanCred req.awsAccessKeyId = some a)
    (hs : cleanCred req.awsSecretAccessKey = some s)
    (hj : getScanJob store req.jobId = some job)
    (ht : req.continuationToken = none) (hf : req.file = true)
    (hscan : scan = .ok n) :
    tickV1 req store scan fetch cmp setupLate lateAt
      = ⟨.ok { job := job, results := [],
               continuationToken := some ⟨some "reference", 0, req.jobId⟩,
               processing := ⟨job.imageCount, 0, false, 0⟩ },
         setJob store req.jobId { job with results := some [], status := "processing" },
         1, 0⟩ := by
  rw [tickV1_bootstrap_eq req store job scan fetch cmp setupLate lateAt g a s hg ha hs hj ht hf,
      hscan, tickBootstrap_ok req store job n hj]

/-- Witness for C5 on a fresh five-image job. -/
theorem c5_bootstrap_tick_witness :
    (cleanCred (some "GK") = some "GK" ∧ cleanCred (some "AK") = some "AK"
      ∧ cleanCred (some "SK") = some "SK" ∧ getScanJob [(1, fixJob5)] 1 = some fixJob5)
    ∧ tickV1 ⟨1, some "AK", some "SK", some "GK", none, true⟩ [(1, fixJob5)] (.ok 5)
          fixFetch1 fixCmp80 false (fun _ => false)
        = ⟨.ok { job := fixJob5, results := [],
                 continuationToken := some ⟨some "reference", 0, 1⟩,
                 processing := ⟨fixJob5.imageCount, 0, false, 0⟩ },
           setJob [(1, fixJob5)] 1 { fixJob5 with results := some [], status := "processing" },
           1, 0⟩ :=
  ⟨⟨by decide, by decide, by decide, rfl⟩,
   c5_bootstrap_tick ⟨1, some "AK", some "SK", some "GK", none, true⟩ [(1, fixJob5)] fixJob5
     (.ok 5) fixFetch1 fixCmp80 false (fun _ => false) 5 "GK" "AK" "SK"
     (by decide) (by decide) (by decide) rfl rfl rfl rfl⟩

/-- C6 counterexample: a continuation tick on a three-image job whose fetched
batch comes back empty reports `isComplete = true` even though
`nextIndex = 0 < total = 3`, returns no token, and persists nothing: the
stored job keeps status "processing" instead of "complete". -/
theorem c6_counterexample :
    ((tickV1 fixReq1 [(1, fixJob3)] (.ok 3) (fun _ _ => []) fixCmp80 false
          (fun _ => false)).resp.toOption.map (fun r => r.processing))
        = some ⟨3, 0, true, 0⟩
    ∧ (tickV1 fixReq1 [(1, fixJob3)] (.ok 3) (fun _ _ => []) fixCmp80 false
          (fun _ => false)).store = [(1, fixJob3)]
    ∧ fixJob3.status = "processing"
    ∧ ¬ ((0 : Nat) ≥ 3) :=
  ⟨by decide, by decide, by decide, by decide⟩

/-- C6 (amended): for a continuation tick not cut short by the time budget:
when the fetched batch is nonempty, the response satisfies
`isComplete = (nextIndex ≥ total)` with `total` the job's image count, and on
completion the job is persisted with status "complete" and no continuation
token is returned; when the fetched batch is empty, the tick instead reports
`isComplete = true` with `nextIndex` unchanged regardless of `total`, and
leaves the store untouched. -/
theorem c6_completion_reporting (req : AnalyzeRequest) (store : Store) (job : Job)
    (t : ContToken) (scan : Except String Nat) (fetch : Nat → Nat → List DriveImage)
    (cmp : Nat → Except String (Option (Option Rat))) (g a s : String)
    (hg : cleanCred req.googleApiKey = some g)
    (ha : cleanCred req.awsAccessKeyId = some a)
    (hs : cleanCred req.awsSecretAccessKey = some s)
    (hj : getScanJob store req.jobId = some job)
    (ht : req.continuationToken = some (.ok t))
    (hr : t.referenceImageId = some "reference") (hf : req.file = true) :
    (fetch t.nextIndex 4 ≠ [] →
      ∃ r : TickOk,
        (tickV1 req store scan fetch cmp false (fun _ => false)).resp = .ok r
        ∧ r.processing.total = job.imageCount
        ∧ r.processing.isComplete = decide (r.processing.nextIndex ≥ r.processing.total)
        ∧ (r.processing.isComplete = true →
            r.continuationToken = none
            ∧ (getScanJob (tickV1 req store scan fetch cmp false (fun _ => false)).store
                 req.jobId).map Job.status = some "complete"))
    ∧ (fetch t.nextIndex 4 = [] →
        tickV1 req store scan fetch cmp false (fun _ => false)
          = ⟨.ok { job := job, results := job.results.getD [],
                   continuationToken := none,
                   processing := ⟨job.imageCount, (job.results.getD []).length, true,
                                  t.nextIndex⟩ },
             store, 0, 0⟩) := by
  constructor
  · intro hne
    rw [tickV1_continue_eq req store job t scan fetch cmp false (fun _ => false) g a s hg ha hs
          hj ht,
        tickContinue_finished req store job t fetch cmp hr hf hj hne]
    by_cases hcm : ((fetch t.nextIndex 4).map DriveImage.index).foldl max 0 + 1 ≥ job.imageCount
    · refine ⟨_, rfl, rfl, rfl, fun _ => ⟨?_, ?_⟩⟩
      · simp [hcm]
      · simp [getScanJob_setJob, hcm]
    · exact ⟨_, rfl, rfl, rfl, fun hc => absurd (of_decide_eq_true hc) hcm⟩
  · intro hemp
    rw [tickV1_continue_eq req store job t scan fetch cmp false (fun _ => false) g a s hg ha hs
          hj ht,
        tickContinue_empty req store job t fetch cmp (fun _ => false) hr hf hemp]

/-- Witness for C6 (amended) on the one-image job with its matching token. -/
theorem c6_completion_reporting_witness :
    (cleanCred fixReq1.googleApiKey = some "GK"
      ∧ cleanCred fixReq1.awsAccessKeyId = some "AK"
      ∧ cleanCred fixReq1.awsSecretAccessKey = some "SK"
      ∧ getScanJob fixStore1 fixReq1.jobId = some fixJob1
      ∧ fixReq1.continuationToken = some (.ok ⟨some "reference", 0, 1⟩)
      ∧ fixReq1.file = true)
    ∧ ((fixFetch1 0 4 ≠ [] →
        ∃ r : TickOk,
          (tickV1 fixReq1 fixStore1 (.ok 1) fixFetch1 fixCmp80 false
              (fun _ => false)).resp = .ok r
          ∧ r.processing.total = fixJob1.imageCount
          ∧ r.processing.isComplete = decide (r.processing.nextIndex ≥ r.processing.total)
          ∧ (r.processing.isComplete = true →
              r.continuationToken = none
              ∧ (getScanJob (tickV1 fixReq1 fixStore1 (.ok 1) fixFetch1 fixCmp80 false
                    (fun _ => false)).store fixReq1.jobId).map Job.status = some "complete"))
      ∧ (fixFetch1 0 4 = [] →
          tickV1 fixReq1 fixStore1 (.ok 1) fixFetch1 fixCmp80 false (fun _ => false)
            = ⟨.ok { job := fixJob1, results := fixJob1.results.getD [],
                     continuationToken := none,
                     processing := ⟨fixJob1.imageCount, (fixJob1.results.getD []).length,
                                    true, 0⟩ },
               fixStore1, 0, 0⟩)) :=
  ⟨⟨rfl, rfl, rfl, rfl, rfl, rfl⟩,
   c6_completion_reporting fixReq1 fixStore1 fixJob1 ⟨some "reference", 0, 1⟩ (.ok 1)
     fixFetch1 fixCmp80 "GK" "AK" "SK" rfl rfl rfl rfl rfl rfl rfl⟩

/-- C7 counterexample: on an empty folder (`imageCount = 0`), the first
(bootstrap) tick does not report complete: it returns `isComplete = false`
together with a continuation token. -/
theorem c7_counterexample :
    ((tickV1 ⟨1, some "AK", some "SK", some "GK", none, true⟩ [(1, fixJob0)] (.ok 0)
          (fun _ _ => []) fixCmp80 false (fun _ => false)).resp.toOption.map
        (fun r => (r.processing.isComplete, r.continuationToken)))
      = some (false, some ⟨some "reference", 0, 1⟩)
    ∧ fixJob0.imageCount = 0 :=
  ⟨by decide, by decide⟩

/-- C7 (amended): with `total = 0` the bootstrap tick still reports
`isComplete = false` and returns a `nextIndex = 0` token; it is the
immediately following tick, consuming that token and fetching the empty
batch, that reports complete with an empty result set, leaving the store as
the bootstrap wrote it. -/
theorem c7_empty_folder_two_ticks (req : AnalyzeRequest) (store : Store) (job : Job)
    (scan : Except String Nat) (fetch : Nat → Nat → List DriveImage)
    (cmp : Nat → Except String (Option (Option Rat))) (n : Nat) (g a s : String)
    (hg : cleanCred req.googleApiKey = some g)
    (ha : cleanCred req.awsAccessKeyId = some a)
    (hs : cleanCred req.awsSecretAccessKey = some s)
    (hj : getScanJob store req.jobId = some job)
    (ht : req.continuationToken = none) (hf : req.file = true)
    (h0 : job.imageCount = 0) (hscan : scan = .ok n) (hfetch : fetch 0 4 = []) :
    tickV1 req store scan fetch cmp false (fun _ => false)
      = ⟨.ok { job := job, results := [],
               continuationToken := some ⟨some "reference", 0, req.jobId⟩,
               processing := ⟨0, 0, false, 0⟩ },
         setJob store req.jobId { job with results := some [], status := "processing" },
         1, 0⟩
    ∧ tickV1 { req with continuationToken := some (.ok ⟨some "reference", 0, req.jobId⟩) }
        (setJob store req.jobId { job with results := some [], status := "processing" })
        scan fetch cmp false (fun _ => false)
      = ⟨.ok { job := { job with results := some [], status := "processing" },
               results := [], continuationToken := none,
               processing := ⟨0, 0, true, 0⟩ },
         setJob store req.jobId { job with results := some [], status := "processing" },
         0, 0⟩ := by
  constructor
  · rw [c5_bootstrap_tick req store job scan fetch cmp false (fun _ => false) n g a s hg ha hs
        hj ht hf hscan, h0]
  · rw [tickV1_continue_eq
          { req with continuationToken := some (.ok ⟨some "reference", 0, req.jobId⟩) }
          (setJob store req.jobId { job with results := some [], status := "processing" })
          { job with results := some [], status := "processing" }
          ⟨some "reference", 0, req.jobId⟩ scan fetch cmp false (fun _ => false) g a s
          hg ha hs (getScanJob_setJob store req.jobId _) rfl,
        tickContinue_empty
          { req with continuationToken := some (.ok ⟨some "reference", 0, req.jobId⟩) }
          (setJob store req.jobId { job with results := some [], status := "processing" })
          { job with results := some [], status := "processing" }
          ⟨some "reference", 0, req.jobId⟩ fetch cmp (fun _ => false) rfl hf hfetch]
    simp [h0]

/-- C8: a per-item comparator failure never aborts the batch: the tick
succeeds, its result set is the previous results followed by exactly one entry
per fetched item, each entry computed from that item's own comparator outcome
alone (so the other items' results are unaffected); a failed item's entry
carries the error message with `matched = false` and `similarity = 0`; the
whole set, failures included, is persisted. -/
theorem c8_partial_failure_isolation (req : AnalyzeRequest) (store : Store) (job : Job)
    (t : ContToken) (scan : Except String Nat) (fetch : Nat → Nat → List DriveImage)
    (cmp : Nat → Except String (Option (Option Rat))) (g a s : String)
    (hg : cleanCred req.googleApiKey = some g)
    (ha : cleanCred req.awsAccessKeyId = some a)
    (hs : cleanCred req.awsSecretAccessKey = some s)
    (hj : getScanJob store req.jobId = some job)
    (ht : req.continuationToken = some (.ok t))
    (hr : t.referenceImageId = some "reference") (hf : req.file = true)
    (hne : fetch t.nextIndex 4 ≠ []) :
    ∃ r : TickOk,
      (tickV1 req store scan fetch cmp false (fun _ => false)).resp = .ok r
      ∧ r.results = job.results.getD []
          ++ (fetch t.nextIndex 4).map (fun img => mkEntry img (cmp img.index))
      ∧ (getScanJob (tickV1 req store scan fetch cmp false (fun _ => false)).store
           req.jobId).map Job.results = some (some r.results)
      ∧ (∀ img msg, cmp img.index = .error msg →
          mkEntry img (cmp img.index)
            = { imageId := img.index + 1, similarity := 0, matched := false,
                error := some msg, url := googleUrl img.id,
                driveUrl := some (driveViewUrl img.id) }) := by
  rw [tickV1_continue_eq req store job t scan fetch cmp false (fun _ => false) g a s hg ha hs
        hj ht,
      tickContinue_finished req store job t fetch cmp hr hf hj hne]
  refine ⟨_, rfl, rfl, ?_, fun img msg hmsg => by rw [hmsg]; rfl⟩
  simp [getScanJob_setJob]

/-- Witness for C8 on a two-image job whose comparator fails on the first
image only. -/
theorem c8_partial_failure_isolation_witness :
    (cleanCred fixReq1.googleApiKey = some "GK"
      ∧ cleanCred fixReq1.awsAccessKeyId = some "AK"
      ∧ cleanCred fixReq1.awsSecretAccessKey = some "SK"
      ∧ getScanJob [(1, fixJob2)] fixReq1.jobId = some fixJob2
      ∧ fixReq1.continuationToken = some (.ok ⟨some "reference", 0, 1⟩)
      ∧ fixReq1.file = true
      ∧ fixFetch2 0 4 ≠ [])
    ∧ (∃ r : TickOk,
        (tickV1 fixReq1 [(1, fixJob2)] (.ok 2) fixFetch2 fixCmpErr0 false
            (fun _ => false)).resp = .ok r
        ∧ r.results = fixJob2.results.getD []
            ++ (fixFetch2 0 4).map (fun img => mkEntry img (fixCmpErr0 img.index))
        ∧ (getScanJob (tickV1 fixReq1 [(1, fixJob2)] (.ok 2) fixFetch2 fixCmpErr0 false
              (fun _ => false)).store fixReq1.jobId).map Job.results = some (some r.results)
        ∧ (∀ img msg, fixCmpErr0 img.index = .error msg →
            mkEntry img (fixCmpErr0 img.index)
              = { imageId := img.index + 1, similarity := 0, matched := false,
                  error := some msg, url := googleUrl img.id,
                  driveUrl := some (driveViewUrl img.id) })) :=
  ⟨⟨rfl, rfl, rfl, rfl, rfl, rfl, by decide⟩,
   c8_partial_failure_isolation fixReq1 [(1, fixJob2)] fixJob2 ⟨some "reference", 0, 1⟩
     (.ok 2) fixFetch2 fixCmpErr0 "GK" "AK" "SK" rfl rfl rfl rfl rfl rfl rfl (by decide)⟩

/-- Witness for C7 (amended) on the empty-folder job. -/
theorem c7_empty_folder_two_ticks_witness :
    (cleanCred (some "GK") = some "GK" ∧ cleanCred (some "AK") = some "AK"
      ∧ cleanCred (some "SK") = some "SK"
      ∧ getScanJob [(1, fixJob0)] 1 = some fixJob0
      ∧ fixJob0.imageCount = 0
      ∧ (fun (_ _ : Nat) => ([] : List DriveImage)) 0 4 = [])
    ∧ (tickV1 ⟨1, some "AK", some "SK", some "GK", none, true⟩ [(1, fixJob0)] (.ok 0)
          (fun _ _ => []) fixCmp80 false (fun _ => false)
        = ⟨.ok { job := fixJob0, results := [],
                 continuationToken := some ⟨some "reference", 0, 1⟩,
                 processing := ⟨0, 0, false, 0⟩ },
           setJob [(1, fixJob0)] 1 { fixJob0 with results := some [], status := "processing" },
           1, 0⟩
      ∧ tickV1 { (⟨1, some "AK", some "SK", some "GK", none, true⟩ : AnalyzeRequest) with
            continuationToken := some (.ok ⟨some "reference", 0, 1⟩) }
          (setJob [(1, fixJob0)] 1 { fixJob0 with results := some [], status := "processing" })
          (.ok 0) (fun _ _ => []) fixCmp80 false (fun _ => false)
        = ⟨.ok { job := { fixJob0 with results := some [], status := "processing" },
                 results := [], continuationToken := none,
                 processing := ⟨0, 0, true, 0⟩ },
           setJob [(1, fixJob0)] 1 { fixJob0 with results := some [], status := "processing" },
           0, 0⟩) :=
  ⟨⟨rfl, rfl, rfl, rfl, rfl, rfl⟩,
   c7_empty_folder_two_ticks ⟨1, some "AK", some "SK", some "GK", none, true⟩ [(1, fixJob0)]
     fixJob0 (.ok 0) (fun _ _ => []) fixCmp80 0 "GK" "AK" "SK" rfl rfl rfl rfl rfl rfl rfl rfl
     rfl⟩
